import Mathlib

/-!
Verification of `src/python/submission_panel.py` (and `src/menu.py`) from the
nuke-render-submitter repository, against its natural-language specification.

The Python code is shallowly embedded: pure string/path manipulation becomes
Lean functions over `String` / `List Char`; filesystem and host-application
state is passed explicitly (`Fs`, `Env`, `PanelState`, `NodeState`); code that
can raise a Python exception is modelled with `Option` / `Except`, and modal
messages shown with `nuke.message` are collected in an `Outcome.messages`
list.  Path functions model POSIX `os.path` semantics (the non-Windows
branch), which is the platform the spec's testable properties address.
-/

namespace SubmitterPanel

/-! ## Python / os.path primitives

Executable models of the Python library primitives the source uses.  They are
written by structural recursion over `List Char` (with explicit fuel where the
Python loop is not structural) so that every definition evaluates by `decide`
or `rfl`.
-/

/-- Model of Python `str.split(sep)` for a one-character separator: split at
every occurrence of `sep`, keeping empty pieces (`"a--b".split("-") ==
["a", "", "b"]`). -/
def splitOnCharAux (sep : Char) : List Char → List Char → List (List Char)
  | [], acc => [acc.reverse]
  | c :: rest, acc =>
    if c = sep then acc.reverse :: splitOnCharAux sep rest []
    else splitOnCharAux sep rest (c :: acc)

/-- Python `s.split(sep)` with a one-character separator `sep`. -/
def pySplitChar (sep : Char) (s : String) : List String :=
  (splitOnCharAux sep s.data []).map (fun l => ⟨l⟩)

/-- Decimal value of a digit character run; `none` when a non-digit occurs. -/
def digitsToNat : List Char → Option Nat → Option Nat
  | [], acc => acc
  | c :: rest, acc =>
    if c.isDigit then
      digitsToNat rest (acc.map (fun n => 10 * n + (c.toNat - 48)))
    else none

/-- Model of Python `int(s)` on the canonical forms this program produces
(an optional leading minus sign followed by decimal digits); any other form
raises `ValueError`, modelled as `none`. -/
def pyInt (s : String) : Option Int :=
  match s.data with
  | [] => none
  | '-' :: rest =>
    match rest with
    | [] => none
    | _ => (digitsToNat rest (some 0)).map (fun n => -(n : Int))
  | l => (digitsToNat l (some 0)).map (fun n => (n : Int))

/-- Decimal digits of `n`, most significant first; fuel-based so that the
definition is structural (fuel `n + 1` always suffices since `n / 10 < n`). -/
def natDigitsAux : Nat → Nat → List Nat
  | 0, _ => []
  | fuel + 1, n => if n < 10 then [n] else natDigitsAux fuel (n / 10) ++ [n % 10]

/-- Decimal digits of `n`, most significant first. -/
def natDigits (n : Nat) : List Nat := natDigitsAux (n + 1) n

/-- The character for decimal digit `d`. -/
def decDigitChar (d : Nat) : Char := Char.ofNat (48 + d)

/-- Model of Python `str(n)` for a nonnegative integer. -/
def pyNatRepr (n : Nat) : String := ⟨(natDigits n).map decDigitChar⟩

/-- Model of Python `str(i)` for an `int`. -/
def pyIntRepr (i : Int) : String :=
  if i < 0 then "-" ++ pyNatRepr i.natAbs else pyNatRepr i.toNat

/-- Model of the Python format spec `f"{n:02d}"` for a nonnegative `n`: pad
with a leading zero to a minimum width of two characters. -/
def format02d (n : Nat) : String :=
  if n < 10 then "0" ++ pyNatRepr n else pyNatRepr n

/-- Whitespace as stripped by Python `str.strip()` (the ASCII part). -/
def isPySpace (c : Char) : Bool :=
  c = ' ' || c = '\t' || c = '\n' || c = '\r' || c = Char.ofNat 11 || c = Char.ofNat 12

/-- Model of Python `str.strip()`. -/
def pyStrip (s : String) : String :=
  ⟨((s.data.dropWhile isPySpace).reverse.dropWhile isPySpace).reverse⟩

/-- One scanning pass of Python `str.replace`: at each position, if the
needle `o :: old` is a prefix, emit `new` and skip the needle, else keep the
character; fuel (the input length suffices) keeps the recursion structural. -/
def pyReplaceAux (o : Char) (old new : List Char) : Nat → List Char → List Char
  | _, [] => []
  | 0, l => l
  | fuel + 1, c :: rest =>
    if (o :: old).isPrefixOf (c :: rest) then
      new ++ pyReplaceAux o old new fuel (rest.drop old.length)
    else
      c :: pyReplaceAux o old new fuel rest

/-- Model of Python `s.replace(old, new)` (all non-overlapping occurrences,
left to right).  The program never calls `replace` with an empty needle, so
that unreachable case is modelled as the identity. -/
def pyReplace (s old new : String) : String :=
  match old.data with
  | [] => s
  | o :: olds => ⟨pyReplaceAux o olds new.data s.data.length s.data⟩

/-- Model of Python `file.readlines()`: split after every newline, keeping
the newline characters, dropping a trailing empty piece. -/
def pyReadlinesAux : List Char → List Char → List String
  | [], [] => []
  | [], acc => [⟨acc.reverse⟩]
  | c :: rest, acc =>
    if c = '\n' then (⟨(c :: acc).reverse⟩ : String) :: pyReadlinesAux rest []
    else pyReadlinesAux rest (c :: acc)

/-- Model of Python `file.readlines()` on file contents `s`. -/
def pyReadlines (s : String) : List String := pyReadlinesAux s.data []

/-- `pre` is a prefix of `s` (Python `s.startswith(pre)`). -/
def strStarts (pre s : String) : Bool := pre.data.isPrefixOf s.data

/-- `suf` is a suffix of `s` (Python `s.endswith(suf)`). -/
def strEnds (suf s : String) : Bool := suf.data.reverse.isPrefixOf s.data.reverse

/-- POSIX `os.path.basename`: the part after the last slash. -/
def os_path_basename (p : String) : String :=
  ⟨(p.data.reverse.takeWhile (fun c => c ≠ '/')).reverse⟩

/-- POSIX `os.path.dirname`: everything up to the last slash, with trailing
slashes stripped unless the head consists only of slashes. -/
def os_path_dirname (p : String) : String :=
  let head := (p.data.reverse.dropWhile (fun c => c ≠ '/')).reverse
  if head.isEmpty || head.all (fun c => c = '/') then ⟨head⟩
  else ⟨(head.reverse.dropWhile (fun c => c = '/')).reverse⟩

/-- POSIX `os.path.join` for two components. -/
def os_path_join (a b : String) : String :=
  if strStarts "/" b then b
  else if a = "" || strEnds "/" a then a ++ b
  else a ++ "/" ++ b

/-- `pathlib.Path(p).stem`: the final component without its last suffix,
where a name has a suffix only when its last dot is neither the first nor the
last character of the name. -/
def path_stem (p : String) : String :=
  let name := (os_path_basename p).data
  let suffixLen := (name.reverse.takeWhile (fun c => c ≠ '.')).length
  if suffixLen < name.length then
    let i := name.length - suffixLen - 1
    if 0 < i ∧ i < name.length - 1 then ⟨name.take i⟩ else ⟨name⟩
  else ⟨name⟩

/-- The key of a `Key=Value` descriptor line: the characters before the
first `=`. -/
def lineKey (s : String) : String := ⟨s.data.takeWhile (fun c => c != '=')⟩

/-- The opening curly brace character. -/
def lbrace : Char := Char.ofNat 123

/-- The closing curly brace character. -/
def rbrace : Char := Char.ofNat 125

/-- One step of Python `str.format` with keyword arguments `vars`: doubled
braces are literal braces, a braced name is looked up in `vars` (`KeyError`
when absent), an unmatched brace raises `ValueError`.  Fuel (the input
length suffices) keeps the recursion structural. -/
def pyFormatAux (vars : List (String × String)) : Nat → List Char → Except String (List Char)
  | _, [] => .ok []
  | 0, l => .ok l
  | fuel + 1, c :: rest =>
    if c = lbrace then
      match rest with
      | [] => .error "ValueError: Single brace encountered in format string"
      | c2 :: rest2 =>
        if c2 = lbrace then (pyFormatAux vars fuel rest2).map (fun l => lbrace :: l)
        else
          let name := (c2 :: rest2).takeWhile (fun ch => ch ≠ rbrace)
          let rem := (c2 :: rest2).drop name.length
          match rem with
          | [] => .error "ValueError: Single brace encountered in format string"
          | _ :: rest3 =>
            match vars.lookup (⟨name⟩ : String) with
            | none => .error ("KeyError: " ++ ⟨name⟩)
            | some v => (pyFormatAux vars fuel rest3).map (fun l => v.data ++ l)
    else if c = rbrace then
      match rest with
      | [] => .error "ValueError: Single brace encountered in format string"
      | c2 :: rest2 =>
        if c2 = rbrace then (pyFormatAux vars fuel rest2).map (fun l => rbrace :: l)
        else .error "ValueError: Single brace encountered in format string"
    else (pyFormatAux vars fuel rest).map (fun l => c :: l)

/-- Model of Python `template.format(**vars)` restricted to plain named
placeholders, which is all the script template uses. -/
def pyFormat (template : String) (vars : List (String × String)) : Except String String :=
  (pyFormatAux vars template.data.length template.data).map (fun l => ⟨l⟩)

/-- Whether `l` is exactly a match of the regex `\.\d{4,}\.exr` (a dot, four
or more digits, then `.exr`), anchored at both ends. -/
def isFrameExrSuffix (l : List Char) : Bool :=
  match l with
  | '.' :: rest =>
    let ds := rest.takeWhile Char.isDigit
    decide (4 ≤ ds.length) && decide (rest.drop ds.length = ['.', 'e', 'x', 'r'])
  | _ => false

/-- Model of `re.sub(r"\.\d{4,}\.exr$", "", filename)`: delete the suffix
starting at the leftmost position from which `\.\d{4,}\.exr` matches to the
end of the string (at most one such match exists because of the anchor). -/
def stripFrameExrAux : List Char → List Char
  | [] => []
  | c :: rest =>
    if isFrameExrSuffix (c :: rest) then []
    else c :: stripFrameExrAux rest

/-- Model of `re.sub(r"\.\d{4,}\.exr$", "", filename)` on a string. -/
def strip_frame_exr (s : String) : String := ⟨stripFrameExrAux s.data⟩

/-! ## Data model

State records for the host environment, the filesystem, the panel's knob
values and a write node, mirroring what the panel reads. -/

/-- The knob values of the submission panel (`_initialize_knobs`).  Boolean
knobs are modelled by the `bool` their `value()` call returns. -/
structure PanelState where
  frame_range : String
  department : String
  comment : String
  chunk_size : Int
  priority : Int
  render_review : Bool
  add_slate : Bool
  add_burn : Bool
deriving DecidableEq

/-- A write node as the panel reads it: its name, its `file` knob, and the
`cached_path` knob when the node has one (`none` makes the lookup raise the
`NameError` that `_check_write_has_files` catches). -/
structure NodeState where
  name : String
  file : String
  cached_path : Option String := none
deriving DecidableEq

/-- Filesystem state: existing regular files with their contents, and
existing directories. -/
structure Fs where
  files : List (String × String)
  dirs : List String
deriving DecidableEq

/-- Host-environment state read by the panel: the platform, environment
variables, the ShotGrid project name, the saved script path, the outcome of
`_get_render_template` (which wraps the external template toolkit in
`try/except` and yields `None` on any failure), and the resources
directory. -/
structure Env where
  windows : Bool
  ocio : Option String
  deadline_path : Option String
  project : Option String
  script_path : String
  render_template : Option String
  resources_dir : String
deriving DecidableEq

/-- The result of `subprocess.run` on the submission command. -/
structure CompletedProcess where
  returncode : Int
  stdout : String
  stderr : String
deriving DecidableEq

/-- A computation result together with the modal messages (`nuke.message`)
it displayed. -/
structure Outcome (α : Type) where
  value : α
  messages : List String
deriving DecidableEq

/-- `os.path.exists` against an `Fs`: true for an existing file or
directory. -/
def fs_path_exists (fs : Fs) (p : String) : Bool :=
  fs.files.any (fun f => f.1 == p) || fs.dirs.any (fun d => d == p)

/-- Reading an existing file's contents; `none` models the `IOError` raised
when the file is missing. -/
def fs_read (fs : Fs) (p : String) : Option String :=
  (fs.files.lookup p)

/-- Whether `os.listdir(d)` contains at least one regular file, as
`_check_write_has_files` tests it: some file of the filesystem lives
directly in `d`. -/
def dir_has_file (fs : Fs) (d : String) : Bool :=
  fs.files.any (fun f => os_path_dirname f.1 == d)

/-! ## Embedded source functions (`src/python/submission_panel.py`) -/

/-- `_get_deadline_command` (lines 85-101): the `DEADLINE_PATH` environment
variable, or the stripped contents of the fallback file
`/Users/Shared/Thinkbox/DEADLINE_PATH` when the variable is unset or empty
and the fallback file exists (`fallback` is its contents, `none` when it
does not exist), joined with `"deadlinecommand"`. -/
def get_deadline_command (env_deadline_path : Option String) (fallback : Option String) : String :=
  let deadline_path := env_deadline_path.getD ""
  let deadline_path :=
    if deadline_path = "" then
      match fallback with
      | some contents => pyStrip contents
      | none => deadline_path
    else deadline_path
  os_path_join deadline_path "deadlinecommand"

/-- `_get_ocio_path` (lines 103-117): empty when the `OCIO` variable is
unset or empty; on a non-Windows platform, every occurrence of
`"/Volumes/production/"` is replaced by `"P:/"` and every backslash by a
forward slash; on Windows the value is returned unchanged. -/
def get_ocio_path (env : Env) : String :=
  let ocio_path := env.ocio.getD ""
  if ocio_path = "" then ""
  else if env.windows = false then
    pyReplace (pyReplace ocio_path "/Volumes/production/" "P:/") "\\" "/"
  else ocio_path

/-- `get_adjusted_frame_range` (lines 215-231).  The source guards the
decrement with `if self.add_slate:`, where `self.add_slate` is the
`Boolean_Knob` *object*, not its `value()`; an object without a falsiness
override is always truthy, so the start frame is decremented regardless of
the knob's value (the `add_slate` field of `PanelState` is deliberately not
consulted).  `none` models the `ValueError` raised when the knob text is not
of the form `int-int`. -/
def get_adjusted_frame_range (p : PanelState) : Option String :=
  match pySplitChar '-' p.frame_range with
  | [a, b] =>
    match pyInt a, pyInt b with
    | some start_frame, some end_frame =>
      some (pyIntRepr (start_frame - 1) ++ "-" ++ pyIntRepr end_frame)
    | _, _ => none
  | _ => none

/-- One `f"Key={value}\n"` descriptor line. -/
def kv (k v : String) : String := k ++ "=" ++ v ++ "\n"

/-- `_write_job_info` (lines 349-375): the lines written to the job info
file, each transcribed as `kv key value` for the source's
`f"Key={value}\n"`.  `none` models the exception propagated when the
frame-range knob cannot be parsed.  For a `"mov"` job the caller always
passes the review movie's `output_file`; `getD ""` stands in for the
`TypeError` that `os.path.dirname(None)` would raise on the unreachable
missing case. -/
def write_job_info_lines (env : Env) (p : PanelState) (output_type : String)
    (node : NodeState) (output_file : Option String) : Option (List String) :=
  match get_adjusted_frame_range p with
  | none => none
  | some frames =>
    let render_type := if output_type = "mov" then "Movie" else "Rendered Image"
    let base : List String := [
      kv "Plugin" "Nuke",
      kv "Name" (node.name ++ " - " ++ render_type),
      kv "BatchName" (os_path_basename env.script_path),
      kv "Frames" frames,
      kv "ChunkSize" (if output_type ≠ "mov" then pyIntRepr p.chunk_size else "1000000"),
      kv "Priority" (pyIntRepr p.priority),
      kv "Pool" "none",
      kv "Department" p.department,
      kv "Comment" p.comment,
      kv "EnvironmentKeyValue0" ("OCIO=" ++ get_ocio_path env),
      kv "OutputDirectory0" (os_path_dirname node.file)]
    let withExr :=
      if output_type = "exr" then
        base ++ [kv "OutputDirectory0" (os_path_dirname node.file)]
      else base
    let withMov :=
      if output_type = "mov" then
        withExr ++ [kv "OutputDirectory1" (os_path_dirname (output_file.getD ""))]
      else withExr
    some withMov

/-- The burn-overlay filename chosen by `_write_script_content`
(lines 410-414): `burn_<project>.nk` when the project name is truthy, else
`burn.nk`. -/
def burn_file_name (project : Option String) : String :=
  match project with
  | some pr => if pr ≠ "" then "burn_" ++ pr ++ ".nk" else "burn.nk"
  | none => "burn.nk"

/-- Python's substring test `needle in haystack` on character lists. -/
def listContainsSub (needle : List Char) : List Char → Bool
  | [] => needle.isEmpty
  | c :: rest => needle.isPrefixOf (c :: rest) || listContainsSub needle rest

/-- The `for i, line in enumerate(lines): if marker in line: filtered_lines =
lines[i+1:]; break` scan of `_write_script_content` (lines 427-430):
everything after the first line containing the marker, `none` when no line
contains it (in which case `filtered_lines` is unbound and the subsequent
use raises `NameError`). -/
def linesAfterMarker (marker : String) : List String → Option (List String)
  | [] => none
  | l :: rest => if listContainsSub marker.data l.data then some rest else linesAfterMarker marker rest

/-- The body of `_write_script_content` (lines 398-454), i.e. everything
inside its `try:`; `.error` models a raised exception. -/
def write_script_content_body (env : Env) (fs : Fs) (p : PanelState)
    (read_file_path output_file_path : String) : Except String String := do
  let root_fr := p.frame_range
  let (root_first, root_last) ←
    match pySplitChar '-' root_fr with
    | [a, b] => Except.ok (a, b)
    | _ => Except.error "ValueError: unpacking root frame range"
  let read_fr ←
    match get_adjusted_frame_range p with
    | some r => Except.ok r
    | none => Except.error "ValueError: invalid frame range"
  let (read_first, read_last) ←
    match pySplitChar '-' read_fr with
    | [a, b] =>
      match pyInt a, pyInt b with
      | some x, some y => Except.ok (x, y)
      | _, _ => Except.error "ValueError: invalid literal for int"
    | _ => Except.error "ValueError: unpacking read frame range"
  let ocio_path := get_ocio_path env
  let file := burn_file_name env.project
  let burn_path := os_path_join env.resources_dir file
  let template_path := os_path_join env.resources_dir "nuke_template.txt"
  let burn_content ←
    if p.add_burn then
      match fs_read fs burn_path with
      | none => Except.error ("FileNotFoundError: " ++ burn_path)
      | some contents =>
        match linesAfterMarker "push $cut_paste_input" (pyReadlines contents) with
        | none => Except.error "NameError: name 'filtered_lines' is not defined"
        | some filtered => Except.ok (String.join filtered)
    else Except.ok ""
  let template ←
    match fs_read fs template_path with
    | none => Except.error ("FileNotFoundError: " ++ template_path)
    | some t => Except.ok t
  pyFormat template [
    ("root_first", root_first),
    ("root_last", root_last),
    ("read_first", pyIntRepr read_first),
    ("read_last", pyIntRepr read_last),
    ("OCIO_PATH", ocio_path),
    ("read_file_path", read_file_path),
    ("output_file_path", output_file_path),
    ("burn_in_file", pyStrip burn_content)]

/-- `_write_script_content` (lines 386-458): the `try/except` wrapper, which
turns any exception of the body into a modal message and a `None` result. -/
def write_script_content (env : Env) (fs : Fs) (p : PanelState)
    (read_file_path output_file_path : String) : Outcome (Option String) :=
  match write_script_content_body env fs p read_file_path output_file_path with
  | .ok s => ⟨some s, []⟩
  | .error e => ⟨none, ["Error generating Nuke script: " ++ e]⟩

/-- The fallback review-movie path of `_build_temp_nuke_script`
(lines 303-317), taken when template resolution yields nothing: the read
file's directory, a `review` subdirectory, the filename with a trailing
`.<4-plus digits>.exr` suffix stripped, and `.mov` appended. -/
def fallback_render_path (original_path : String) : String :=
  let original_dir := os_path_dirname original_path
  let review_dir := os_path_join original_dir "review"
  let filename := strip_frame_exr (os_path_basename original_path)
  os_path_join review_dir (filename ++ ".mov")

/-- The review-movie output path computed by `_build_temp_nuke_script`
(lines 300-328): the template result when available (falsy `None` or `""`
selects the fallback), with backslashes normalized; the `elif`/`else` arms
after a truthy `render_path` are the source's unreachable branches. -/
def review_output_path (render_template : Option String) (node_file read_file_path : String) : String :=
  let render_path := (render_template.getD "")
  let render_path := if render_path = "" then fallback_render_path node_file else render_path
  if render_path ≠ "" then pyReplace render_path "\\" "/"
  else if read_file_path ≠ "" then
    pyReplace (os_path_join (os_path_dirname read_file_path) "output.mov") "\\" "/"
  else "/tmp/output.exr"

/-- The `tmp` sibling directory for temporary scripts
(`_build_temp_nuke_script`, lines 282-288). -/
def temp_script_dir (script_path : String) : String :=
  os_path_join (os_path_dirname script_path) "tmp"

/-- The candidate filename `f"{base_name}_tmp_{script_number:02d}.nk"`
(line 291). -/
def mk_temp_script_name (base : String) (n : Nat) : String :=
  base ++ "_tmp_" ++ format02d n ++ ".nk"

/-- The candidate path probed by the naming loop (lines 290-295). -/
def temp_script_candidate (script_path : String) (n : Nat) : String :=
  os_path_join (temp_script_dir script_path) (mk_temp_script_name (path_stem script_path) n)

/-- The `while True` naming loop (lines 290-295): starting from
`script_number`, increment while the candidate path exists; fuel-based so
that the definition is structural (the number of existing paths plus one
always suffices, see the C5 theorem). -/
def find_free_script_number (fs : Fs) (script_path : String) : Nat → Nat → Option Nat
  | 0, _ => none
  | fuel + 1, n =>
    if fs_path_exists fs (temp_script_candidate script_path n) then
      find_free_script_number fs script_path fuel (n + 1)
    else some n

/-- The path `_build_temp_nuke_script` writes the temporary script to: the
first free candidate, probing `script_number = 1, 2, ...`. -/
def choose_temp_script_path (fs : Fs) (script_path : String) : Option String :=
  (find_free_script_number fs script_path (fs.files.length + fs.dirs.length + 1) 1).map
    (temp_script_candidate script_path)

/-- `_build_temp_nuke_script` (lines 273-337).  The result pairs the new
script path with the review output path; `.error` models an exception
escaping the function — in particular the `TypeError` raised by
`script_file.write(None)` when `_write_script_content` has swallowed an
error and returned `None`. -/
def build_temp_nuke_script (env : Env) (fs : Fs) (p : PanelState) (node : NodeState) :
    Outcome (Except String (String × String)) :=
  let read_file_path := node.file
  match choose_temp_script_path fs env.script_path with
  | none => ⟨.error "unbounded naming loop", []⟩
  | some new_script_path =>
    let read_file_path := pyReplace read_file_path "\\" "/"
    let output_file_path := review_output_path env.render_template node.file read_file_path
    let content := write_script_content env fs p read_file_path output_file_path
    match content.value with
    | some _ => ⟨.ok (new_script_path, output_file_path), content.messages⟩
    | none => ⟨.error "TypeError: write() argument must be str, not None", content.messages⟩

/-- `_handle_submission_result` (lines 566-572): the modal message shown for
a completed submission command. -/
def handle_submission_result (result : CompletedProcess) : String :=
  if result.returncode ≠ 0 then "Failed to submit to Deadline!\n" ++ result.stderr
  else "Successfully submitted to Deadline!\n" ++ result.stdout

/-- The per-node submission loop of `show` (lines 605-612): every write node
is processed in order — the loop body contains no `break` or early return,
so a failed invocation for one node does not stop the following ones.  `run`
gives the completed process of `_execute_command` for each node. -/
def run_submissions (nodes : List NodeState) (run : NodeState → CompletedProcess) : List String :=
  nodes.map (fun n => handle_submission_result (run n))

/-- `_check_write_has_files` (lines 463-477): `True` when the output
directory does not exist, the user's answer when the directory contains a
file, and Python's implicit `None` otherwise.  `answer` is what `nuke.ask`
returns for this node. -/
def check_write_has_files (fs : Fs) (node : NodeState) (answer : Bool) : Option Bool :=
  let file_path := node.cached_path.getD node.file
  let output_dir := os_path_dirname file_path
  if fs_path_exists fs output_dir = false then some true
  else if dir_has_file fs output_dir then some answer
  else none

/-- The gate in `show` (line 595): `if not any(_check_write_has_files(node)
for node in write_nodes): return`.  Python `any` is true when some check
value is truthy, i.e. `True`; `False` and `None` are falsy. -/
def submission_proceeds (fs : Fs) (nodes : List (NodeState × Bool)) : Bool :=
  nodes.any (fun nb => check_write_has_files fs nb.1 nb.2 == some true)

/-- The nodes `show` goes on to submit (lines 595-612): all of them when the
gate passes, none otherwise — the per-node loop is not filtered by the
per-node check results. -/
def show_submitted_nodes (fs : Fs) (nodes : List (NodeState × Bool)) : List NodeState :=
  if submission_proceeds fs nodes then nodes.map Prod.fst else []

/-! ## Helper lemmas -/

theorem mk_data (s : String) : (⟨s.data⟩ : String) = s := by
  cases s
  rfl

theorem takeWhile_key (k : List Char) (rest : List Char)
    (hk : ∀ c ∈ k, (c != '=') = true) :
    (k ++ '=' :: rest).takeWhile (fun c => c != '=') = k := by
  induction k with
  | nil => simp
  | cons c cs ih =>
    have hc : (c != '=') = true := hk c (by simp)
    simp only [List.cons_append, List.takeWhile_cons, hc, if_true]
    rw [ih (fun x hx => hk x (by simp [hx]))]

theorem lineKey_kv (k v : String) (hk : ∀ c ∈ k.data, (c != '=') = true) :
    lineKey (kv k v) = k := by
  have hdata : (kv k v).data = k.data ++ '=' :: (v.data ++ '\n' :: []) := by
    simp only [kv, String.data_append]
    simp
  unfold lineKey
  rw [hdata, takeWhile_key _ _ hk, mk_data]

theorem filter_key_cons_ne (key k v : String) (l : List String)
    (hk : ∀ c ∈ k.data, (c != '=') = true) (hne : k ≠ key) :
    (kv k v :: l).filter (fun s => lineKey s == key) =
      l.filter (fun s => lineKey s == key) := by
  rw [List.filter_cons_of_neg]
  simp [lineKey_kv k v hk, hne]

theorem filter_key_cons_eq (key v : String) (l : List String)
    (hk : ∀ c ∈ key.data, (c != '=') = true) :
    (kv key v :: l).filter (fun s => lineKey s == key) =
      kv key v :: l.filter (fun s => lineKey s == key) := by
  rw [List.filter_cons_of_pos]
  simp [lineKey_kv key v hk]

theorem filter_odir_cons_neg (k v : String) (l : List String)
    (hk : ∀ c ∈ k.data, (c != '=') = true)
    (h : strStarts "OutputDirectory" k = false) :
    (kv k v :: l).filter (fun s => strStarts "OutputDirectory" (lineKey s)) =
      l.filter (fun s => strStarts "OutputDirectory" (lineKey s)) := by
  rw [List.filter_cons_of_neg]
  simp [lineKey_kv k v hk, h]

theorem filter_odir_cons_pos (k v : String) (l : List String)
    (hk : ∀ c ∈ k.data, (c != '=') = true)
    (h : strStarts "OutputDirectory" k = true) :
    (kv k v :: l).filter (fun s => strStarts "OutputDirectory" (lineKey s)) =
      kv k v :: l.filter (fun s => strStarts "OutputDirectory" (lineKey s)) := by
  rw [List.filter_cons_of_pos]
  simp [lineKey_kv k v hk, h]

theorem pyReplaceAux_single (o b : Char) :
    ∀ (fuel : Nat) (l : List Char), l.length ≤ fuel →
      pyReplaceAux o [] [b] fuel l = l.map (fun c => if c = o then b else c) := by
  intro fuel
  induction fuel with
  | zero =>
    intro l hl
    rw [List.length_eq_zero.mp (Nat.le_zero.mp hl)]
    rfl
  | succ fuel ih =>
    intro l hl
    cases l with
    | nil => rfl
    | cons c rest =>
      have hpre : ([o]).isPrefixOf (c :: rest) = (o == c) := by
        simp [List.isPrefixOf]
      simp only [pyReplaceAux, hpre, List.map_cons]
      by_cases hc : o = c
      · subst hc
        simp only [beq_self_eq_true, if_true, List.length_nil, List.drop_zero, if_pos rfl]
        rw [ih rest (Nat.le_of_succ_le_succ hl)]
        rfl
      · have : (o == c) = false := beq_false_of_ne hc
        rw [this]
        simp only [Bool.false_eq_true, if_false]
        rw [ih rest (Nat.le_of_succ_le_succ hl)]
        have : (if c = o then b else c) = c := if_neg (fun h => hc h.symm)
        rw [this]

theorem pyReplace_backslash (s : String) :
    pyReplace s "\\" "/" = ⟨s.data.map (fun c => if c = '\\' then '/' else c)⟩ := by
  have h : pyReplace s "\\" "/" = ⟨pyReplaceAux '\\' [] ['/'] s.data.length s.data⟩ := rfl
  rw [h, pyReplaceAux_single '\\' '/' s.data.length s.data (Nat.le_refl _)]

theorem pyReplace_backslash_fixed (s : String) (h : ∀ c ∈ s.data, c ≠ '\\') :
    pyReplace s "\\" "/" = s := by
  have hmap : s.data.map (fun c => if c = '\\' then '/' else c) = s.data.map id :=
    List.map_congr_left (fun c hc => if_neg (h c hc))
  rw [pyReplace_backslash, hmap, List.map_id, mk_data]

theorem pyReplaceAux_not_contains (o : Char) (olds new : List Char) :
    ∀ (fuel : Nat) (l : List Char), l.length ≤ fuel →
      listContainsSub (o :: olds) l = false →
      pyReplaceAux o olds new fuel l = l := by
  intro fuel
  induction fuel with
  | zero =>
    intro l hl _
    rw [List.length_eq_zero.mp (Nat.le_zero.mp hl)]
    rfl
  | succ fuel ih =>
    intro l hl hc
    cases l with
    | nil => rfl
    | cons c rest =>
      have hsplit : (o :: olds).isPrefixOf (c :: rest) = false ∧
          listContainsSub (o :: olds) rest = false := by
        have : ((o :: olds).isPrefixOf (c :: rest) ||
            listContainsSub (o :: olds) rest) = false := hc
        exact ⟨by simpa using (Bool.or_eq_false_iff.mp this).1,
          (Bool.or_eq_false_iff.mp this).2⟩
      simp only [pyReplaceAux, hsplit.1, Bool.false_eq_true, if_false]
      rw [ih rest (Nat.le_of_succ_le_succ hl) hsplit.2]

theorem pyReplaceAux_head_match (o : Char) (olds new t : List Char)
    (hc : listContainsSub (o :: olds) t = false) :
    pyReplaceAux o olds new ((o :: olds) ++ t).length ((o :: olds) ++ t) = new ++ t := by
  have hpre : (o :: olds).isPrefixOf (o :: (olds ++ t)) = true := by
    rw [List.isPrefixOf_iff_prefix, ← List.cons_append]
    exact List.prefix_append _ _
  have hlen : ((o :: olds) ++ t).length = (olds.length + t.length) + 1 := by
    simp [List.length_append, List.length_cons]
  rw [hlen]
  simp only [pyReplaceAux, List.append_eq, List.cons_append, hpre, eq_self_iff_true, if_true]
  rw [@List.drop_left' _ olds t _ rfl,
    pyReplaceAux_not_contains o olds new _ t (Nat.le_add_left _ _) hc]

theorem pyReplace_vol_head (t : String)
    (hc : listContainsSub ("/Volumes/production/").data t.data = false) :
    pyReplace ("/Volumes/production/" ++ t) "/Volumes/production/" "P:/" = "P:/" ++ t := by
  have h0 : pyReplace ("/Volumes/production/" ++ t) "/Volumes/production/" "P:/" =
      ⟨pyReplaceAux '/' "Volumes/production/".data "P:/".data
        ("/Volumes/production/" ++ t).data.length ("/Volumes/production/" ++ t).data⟩ := rfl
  have hdata : ("/Volumes/production/" ++ t).data =
      ('/' :: "Volumes/production/".data) ++ t.data := by
    rw [String.data_append]
  rw [h0, hdata, pyReplaceAux_head_match '/' "Volumes/production/".data "P:/".data t.data hc]
  exact String.ext (by rw [String.data_append])

theorem mem_basename_subset (p : String) : ∀ c ∈ (os_path_basename p).data, c ∈ p.data := by
  intro c hc
  unfold os_path_basename at hc
  rw [mk_data] at hc
  · exact (List.mem_reverse.mp (List.takeWhile_subset _ (List.mem_reverse.mp hc)))

theorem basename_no_slash (p : String) : ∀ c ∈ (os_path_basename p).data, c ≠ '/' := by
  intro c hc
  unfold os_path_basename at hc
  have h := List.mem_takeWhile_imp (List.mem_reverse.mp hc)
  simpa using h

theorem mem_dirname_subset (p : String) : ∀ c ∈ (os_path_dirname p).data, c ∈ p.data := by
  intro c hc
  simp only [os_path_dirname] at hc
  split at hc
  · exact List.mem_reverse.mp (List.dropWhile_subset _ (List.mem_reverse.mp hc))
  · have h1 : c ∈ (p.data.reverse.dropWhile (fun x => x ≠ '/')).reverse :=
      List.mem_reverse.mp (List.dropWhile_subset _ (List.mem_reverse.mp hc))
    exact List.mem_reverse.mp (List.dropWhile_subset _ (List.mem_reverse.mp h1))

theorem strip_frame_exr_subset (l : List Char) : ∀ c ∈ stripFrameExrAux l, c ∈ l := by
  induction l with
  | nil => intro c hc; simp [stripFrameExrAux] at hc
  | cons a rest ih =>
    intro c hc
    unfold stripFrameExrAux at hc
    split at hc
    · simp at hc
    · rcases List.mem_cons.mp hc with h | h
      · simp [h]
      · exact List.mem_cons_of_mem a (ih c h)

theorem strStarts_slash_false (s : String) (h : ∀ c ∈ s.data, c ≠ '/') :
    strStarts "/" s = false := by
  unfold strStarts
  rw [show ("/" : String).data = ['/'] from rfl]
  cases hd : s.data with
  | nil => rfl
  | cons c rest =>
    have hcne : c ≠ '/' := h c (by rw [hd]; exact List.mem_cons_self c rest)
    simp [List.isPrefixOf, beq_false_of_ne (Ne.symm hcne)]

theorem join_of_normal (a b : String) (ha1 : a ≠ "") (ha2 : strEnds "/" a = false)
    (hb : strStarts "/" b = false) : os_path_join a b = a ++ "/" ++ b := by
  unfold os_path_join
  rw [if_neg (by simp [hb]), if_neg (by simp [ha1, ha2])]

theorem strEnds_slash_append_review (x : String) : strEnds "/" (x ++ "review") = false := by
  unfold strEnds
  rw [String.data_append, List.reverse_append,
    show ("review" : String).data.reverse = ['w', 'e', 'i', 'v', 'e', 'r'] from rfl,
    show ("/" : String).data.reverse = ['/'] from rfl]
  simp [List.isPrefixOf]

theorem fallback_render_path_eq (p : String)
    (h1 : os_path_dirname p ≠ "")
    (h2 : strEnds "/" (os_path_dirname p) = false) :
    fallback_render_path p =
      os_path_dirname p ++ "/review/" ++ strip_frame_exr (os_path_basename p) ++ ".mov" := by
  show os_path_join (os_path_join (os_path_dirname p) "review")
      (strip_frame_exr (os_path_basename p) ++ ".mov") =
    os_path_dirname p ++ "/review/" ++ strip_frame_exr (os_path_basename p) ++ ".mov"
  have hj1 : os_path_join (os_path_dirname p) "review" =
      os_path_dirname p ++ "/" ++ "review" :=
    join_of_normal _ _ h1 h2 (by decide)
  rw [hj1]
  have hmovslash : ∀ c ∈ (strip_frame_exr (os_path_basename p) ++ ".mov").data, c ≠ '/' := by
    intro c hc
    rw [String.data_append] at hc
    rcases List.mem_append.mp hc with h | h
    · exact basename_no_slash p c (strip_frame_exr_subset _ c h)
    · have : c = '.' ∨ c = 'm' ∨ c = 'o' ∨ c = 'v' := by simpa using h
      rcases this with h | h | h | h <;> subst h <;> decide
  have hne2 : os_path_dirname p ++ "/" ++ "review" ≠ "" := by
    intro h
    have hd := congrArg String.data h
    rw [String.data_append] at hd
    exact absurd (List.append_eq_nil.mp hd).2 (by decide)
  have hj2 : os_path_join (os_path_dirname p ++ "/" ++ "review")
      (strip_frame_exr (os_path_basename p) ++ ".mov") =
      os_path_dirname p ++ "/" ++ "review" ++ "/" ++
        (strip_frame_exr (os_path_basename p) ++ ".mov") := by
    apply join_of_normal _ _ hne2
    · have : os_path_dirname p ++ "/" ++ "review" = (os_path_dirname p ++ "/") ++ "review" := rfl
      rw [this, strEnds_slash_append_review]
    · exact strStarts_slash_false _ hmovslash
  rw [hj2]
  apply String.ext
  simp only [String.data_append,
    show ("/" : String).data = ['/'] from rfl,
    show ("review" : String).data = ['r', 'e', 'v', 'i', 'e', 'w'] from rfl,
    show ("/review/" : String).data = ['/', 'r', 'e', 'v', 'i', 'e', 'w', '/'] from rfl,
    List.append_assoc]
  simp

/-- The number denoted by a most-significant-first digit list. -/
def undigits (l : List Nat) : Nat := l.foldl (fun a d => 10 * a + d) 0

theorem undigits_append (l : List Nat) (d : Nat) :
    undigits (l ++ [d]) = 10 * undigits l + d := by
  unfold undigits
  rw [List.foldl_append]
  rfl

theorem natDigitsAux_undigits : ∀ (fuel n : Nat), n < fuel →
    undigits (natDigitsAux fuel n) = n := by
  intro fuel
  induction fuel with
  | zero => intro n hn; omega
  | succ fuel ih =>
    intro n hn
    by_cases h10 : n < 10
    · simp only [natDigitsAux, if_pos h10]
      simp [undigits]
    · simp only [natDigitsAux, if_neg h10]
      rw [undigits_append, ih (n / 10) (by omega)]
      omega

theorem natDigits_undigits (n : Nat) : undigits (natDigits n) = n :=
  natDigitsAux_undigits (n + 1) n (Nat.lt_succ_self n)

theorem natDigits_inj {n m : Nat} (h : natDigits n = natDigits m) : n = m := by
  rw [← natDigits_undigits n, ← natDigits_undigits m, h]

theorem natDigitsAux_lt : ∀ (fuel n : Nat), ∀ d ∈ natDigitsAux fuel n, d < 10 := by
  intro fuel
  induction fuel with
  | zero => intro n d hd; simp [natDigitsAux] at hd
  | succ fuel ih =>
    intro n d hd
    by_cases h10 : n < 10
    · simp only [natDigitsAux, if_pos h10] at hd
      simp at hd
      omega
    · simp only [natDigitsAux, if_neg h10] at hd
      rcases List.mem_append.mp hd with h | h
      · exact ih (n / 10) d h
      · have : d = n % 10 := by simpa using h
        subst this
        exact Nat.mod_lt _ (by omega)

theorem decDigitChar_inj : ∀ d < 10, ∀ e < 10, decDigitChar d = decDigitChar e → d = e := by
  decide

theorem map_decDigitChar_inj : ∀ (l1 l2 : List Nat), (∀ d ∈ l1, d < 10) →
    (∀ d ∈ l2, d < 10) → l1.map decDigitChar = l2.map decDigitChar → l1 = l2 := by
  intro l1
  induction l1 with
  | nil =>
    intro l2 _ _ h
    cases l2 with
    | nil => rfl
    | cons b bs => simp at h
  | cons a as ih =>
    intro l2 h1 h2 h
    cases l2 with
    | nil => simp at h
    | cons b bs =>
      simp only [List.map_cons, List.cons.injEq] at h
      have ha : a = b :=
        decDigitChar_inj a (h1 a (by simp)) b (h2 b (by simp)) h.1
      have hs : as = bs :=
        ih bs (fun d hd => h1 d (by simp [hd])) (fun d hd => h2 d (by simp [hd])) h.2
      rw [ha, hs]

theorem pyNatRepr_inj {n m : Nat} (h : pyNatRepr n = pyNatRepr m) : n = m := by
  unfold pyNatRepr at h
  have hd : (natDigits n).map decDigitChar = (natDigits m).map decDigitChar :=
    congrArg String.data h
  exact natDigits_inj
    (map_decDigitChar_inj _ _ (natDigitsAux_lt _ n) (natDigitsAux_lt _ m) hd)

theorem natDigits_of_lt {n : Nat} (h : n < 10) : natDigits n = [n] := by
  simp [natDigits, natDigitsAux, h]

theorem format02d_inj {n m : Nat} (h : format02d n = format02d m) : n = m := by
  unfold format02d at h
  by_cases hn : n < 10 <;> by_cases hm : m < 10
  · rw [if_pos hn, if_pos hm] at h
    have hd := congrArg String.data h
    simp only [String.data_append, show ("0" : String).data = ['0'] from rfl,
      List.cons_append, List.nil_append, List.cons.injEq] at hd
    exact pyNatRepr_inj (String.ext hd.2)
  · rw [if_pos hn, if_neg hm] at h
    exfalso
    have hd := congrArg String.data h
    simp only [String.data_append, show ("0" : String).data = ['0'] from rfl,
      List.cons_append, List.nil_append] at hd
    have hform : ('0' :: (pyNatRepr n).data) = ([0] ++ natDigits n).map decDigitChar := by
      simp [pyNatRepr]
      decide
    rw [hform] at hd
    have hdig : [0] ++ natDigits n = natDigits m :=
      map_decDigitChar_inj _ _
        (by
          intro d hdm
          rcases List.mem_append.mp hdm with h0 | h0
          · simp at h0; omega
          · exact natDigitsAux_lt _ n d h0)
        (natDigitsAux_lt _ m) hd
    have := natDigits_undigits m
    rw [← hdig] at this
    rw [natDigits_of_lt hn] at this
    simp [undigits] at this
    omega
  · rw [if_neg hn, if_pos hm] at h
    exfalso
    have hd := congrArg String.data h
    simp only [String.data_append, show ("0" : String).data = ['0'] from rfl,
      List.cons_append, List.nil_append] at hd
    have hform : ('0' :: (pyNatRepr m).data) = ([0] ++ natDigits m).map decDigitChar := by
      simp [pyNatRepr]
      decide
    rw [hform] at hd
    have hdig : natDigits n = [0] ++ natDigits m :=
      map_decDigitChar_inj _ _
        (natDigitsAux_lt _ n)
        (by
          intro d hdm
          rcases List.mem_append.mp hdm with h0 | h0
          · simp at h0; omega
          · exact natDigitsAux_lt _ m d h0)
        hd
    have := natDigits_undigits n
    rw [hdig, natDigits_of_lt hm] at this
    simp [undigits] at this
    omega
  · rw [if_neg hn, if_neg hm] at h
    exact pyNatRepr_inj h

theorem str_append_cancel_left {a x y : String} (h : a ++ x = a ++ y) : x = y := by
  apply String.ext
  have hd := congrArg String.data h
  rw [String.data_append, String.data_append] at hd
  exact List.append_cancel_left hd

theorem mk_temp_script_name_data (base : String) (k : Nat) :
    (mk_temp_script_name base k).data =
      base.data ++ '_' :: 't' :: 'm' :: 'p' :: '_' :: ((format02d k).data ++ ['.', 'n', 'k']) := by
  unfold mk_temp_script_name
  simp [String.data_append, show ("_tmp_" : String).data = ['_', 't', 'm', 'p', '_'] from rfl,
    show (".nk" : String).data = ['.', 'n', 'k'] from rfl]

theorem mk_temp_script_name_inj (base : String) {n m : Nat}
    (h : mk_temp_script_name base n = mk_temp_script_name base m) : n = m := by
  have hd := congrArg String.data h
  rw [mk_temp_script_name_data, mk_temp_script_name_data] at hd
  have h1 := List.append_cancel_left hd
  simp only [List.cons.injEq, true_and] at h1
  exact format02d_inj (String.ext (List.append_cancel_right h1))

theorem mk_temp_script_name_slash (base : String) (n m : Nat) :
    strStarts "/" (mk_temp_script_name base n) = strStarts "/" (mk_temp_script_name base m) := by
  unfold strStarts
  rw [mk_temp_script_name_data, mk_temp_script_name_data,
    show ("/" : String).data = ['/'] from rfl]
  cases base.data with
  | nil => simp [List.isPrefixOf]
  | cons c rest => simp [List.isPrefixOf]

theorem temp_script_candidate_inj (sp : String) {n m : Nat}
    (h : temp_script_candidate sp n = temp_script_candidate sp m) : n = m := by
  unfold temp_script_candidate os_path_join at h
  have hsl := mk_temp_script_name_slash (path_stem sp) n m
  by_cases hs : strStarts "/" (mk_temp_script_name (path_stem sp) n) = true
  · rw [if_pos hs, if_pos (hsl ▸ hs)] at h
    exact mk_temp_script_name_inj _ h
  · rw [if_neg hs, if_neg (fun hc => hs (hsl ▸ hc))] at h
    by_cases hd : (temp_script_dir sp = "" || strEnds "/" (temp_script_dir sp)) = true
    · rw [if_pos hd, if_pos hd] at h
      exact mk_temp_script_name_inj _ (str_append_cancel_left h)
    · rw [if_neg hd, if_neg hd] at h
      exact mk_temp_script_name_inj _ (str_append_cancel_left h)

/-- All paths the filesystem knows. -/
def fs_all_paths (fs : Fs) : List String := fs.files.map Prod.fst ++ fs.dirs

theorem mem_of_path_exists (fs : Fs) (p : String) (h : fs_path_exists fs p = true) :
    p ∈ fs_all_paths fs := by
  unfold fs_path_exists at h
  unfold fs_all_paths
  rcases Bool.or_eq_true_iff.mp h with h | h
  · obtain ⟨f, hf, hfe⟩ := List.any_eq_true.mp h
    have : f.1 = p := eq_of_beq hfe
    exact List.mem_append.mpr (Or.inl (this ▸ List.mem_map_of_mem Prod.fst hf))
  · obtain ⟨d, hd, hde⟩ := List.any_eq_true.mp h
    have : d = p := eq_of_beq hde
    exact List.mem_append.mpr (Or.inr (this ▸ hd))

theorem exists_free_candidate (fs : Fs) (sp : String) :
    ∃ k, k < fs.files.length + fs.dirs.length + 1 ∧
      fs_path_exists fs (temp_script_candidate sp (1 + k)) = false := by
  by_contra hco
  push_neg at hco
  have hall : ∀ k < fs.files.length + fs.dirs.length + 1,
      temp_script_candidate sp (1 + k) ∈ fs_all_paths fs := by
    intro k hk
    have := hco k hk
    exact mem_of_path_exists fs _ (by
      cases hx : fs_path_exists fs (temp_script_candidate sp (1 + k))
      · exact absurd hx this
      · rfl)
  set L := fs.files.length + fs.dirs.length with hL
  have hinj : Function.Injective (fun k => temp_script_candidate sp (1 + k)) := by
    intro k1 k2 hk
    have := temp_script_candidate_inj sp hk
    omega
  have hcard : ((Finset.range (L + 1)).image (fun k => temp_script_candidate sp (1 + k))).card
      = L + 1 := by
    rw [Finset.card_image_of_injective _ hinj, Finset.card_range]
  have hsub : ((Finset.range (L + 1)).image (fun k => temp_script_candidate sp (1 + k)))
      ⊆ (fs_all_paths fs).toFinset := by
    intro x hx
    obtain ⟨k, hk, hke⟩ := Finset.mem_image.mp hx
    rw [List.mem_toFinset]
    exact hke ▸ hall k (Finset.mem_range.mp hk)
  have hle : L + 1 ≤ (fs_all_paths fs).length := by
    calc L + 1 = _ := hcard.symm
    _ ≤ (fs_all_paths fs).toFinset.card := Finset.card_le_card hsub
    _ ≤ (fs_all_paths fs).length := List.toFinset_card_le _
  have : (fs_all_paths fs).length = L := by
    unfold fs_all_paths
    rw [List.length_append, List.length_map]
  omega

theorem find_free_spec (fs : Fs) (sp : String) :
    ∀ (fuel start : Nat),
      (∃ k, k < fuel ∧ fs_path_exists fs (temp_script_candidate sp (start + k)) = false) →
      ∃ j, find_free_script_number fs sp fuel start = some j ∧ start ≤ j ∧
        fs_path_exists fs (temp_script_candidate sp j) = false ∧
        ∀ m, start ≤ m → m < j → fs_path_exists fs (temp_script_candidate sp m) = true := by
  intro fuel
  induction fuel with
  | zero =>
    intro start h
    obtain ⟨k, hk, _⟩ := h
    omega
  | succ fuel ih =>
    intro start h
    obtain ⟨k, hk, hfree⟩ := h
    by_cases hs : fs_path_exists fs (temp_script_candidate sp start) = true
    · have hk0 : k ≠ 0 := by
        intro h0
        subst h0
        rw [Nat.add_zero] at hfree
        rw [hs] at hfree
        cases hfree
      obtain ⟨j, hfind, hge, hfr, hall⟩ := ih (start + 1)
        ⟨k - 1, by omega, by rw [show start + 1 + (k - 1) = start + k by omega]; exact hfree⟩
      refine ⟨j, ?_, by omega, hfr, ?_⟩
      · simp only [find_free_script_number, hs, if_true]
        exact hfind
      · intro m hm1 hm2
        rcases Nat.eq_or_lt_of_le hm1 with h | h
        · exact h ▸ hs
        · exact hall m h hm2
    · have hsf : fs_path_exists fs (temp_script_candidate sp start) = false := by
        cases hx : fs_path_exists fs (temp_script_candidate sp start)
        · rfl
        · exact absurd hx hs
      refine ⟨start, ?_, Nat.le_refl _, hsf, fun m hm1 hm2 => by omega⟩
      simp only [find_free_script_number, hsf]
      simp

/-! ## Sample fixtures used by witnesses -/

/-- A concrete environment used by witness theorems. -/
def sampleEnv : Env :=
  Env.mk false none none none "/j/c/s_v1.nk" none "/res"

/-- Concrete panel values used by witness theorems. -/
def samplePanel : PanelState :=
  PanelState.mk "1001-1050" "td" "cmt" 10 33 true true true

/-- A concrete write node used by witness theorems. -/
def sampleNode : NodeState :=
  NodeState.mk "W1" "/out/img.exr" none

/-! ## Claims -/

/-- C1: the spec says the start frame is decremented only when the slate
option is enabled.  The source guards the decrement with `if self.add_slate:`
— the knob object itself, which is always truthy — so with the slate option
disabled (`add_slate` value `false`) and frame range `"1001-1050"` the
adjusted range is still `"1000-1050"`, not the claimed `"1001-1050"`. -/
theorem C1_slate_adjustment_unconditional :
    (PanelState.mk "1001-1050" "" "" 10 33 true false true).add_slate = false ∧
    get_adjusted_frame_range (PanelState.mk "1001-1050" "" "" 10 33 true false true) =
      some "1000-1050" := by
  exact ⟨rfl, by decide⟩

/-- C10: with the `DEADLINE_PATH` environment variable unset (or empty) and
the fallback config file absent, `_get_deadline_command` returns the bare
relative name `"deadlinecommand"` — `os.path.join` on an empty root — and
resolution is left to the operating system. -/
theorem C10_deadline_command_bare_fallback (dp : Option String)
    (h : dp = none ∨ dp = some "") :
    get_deadline_command dp none = "deadlinecommand" := by
  rcases h with h | h <;> subst h <;> decide

/-- C10 witness: the theorem applied at a concretely unset variable. -/
theorem C10_witness :
    ((none : Option String) = none ∨ (none : Option String) = some "") ∧
    get_deadline_command none none = "deadlinecommand" :=
  ⟨Or.inl rfl, C10_deadline_command_bare_fallback none (Or.inl rfl)⟩

/-- C4: the spec says each node's overwrite answer decides that node's
submission.  In the source, `show` gates the whole batch on
`any(_check_write_has_files(node) ...)`: here the first node's output
directory does not exist (check `True`), the second node's directory
contains a file and the user answers *no* (check `False`), yet both nodes
are submitted — the per-node answer does not decide. -/
theorem C4_any_gate_ignores_per_node_answer :
    check_write_has_files (Fs.mk [("/out/b/old.exr", "")] ["/out/b"])
      (NodeState.mk "W2" "/out/b/img.exr" none) false = some false ∧
    show_submitted_nodes (Fs.mk [("/out/b/old.exr", "")] ["/out/b"])
      [(NodeState.mk "W1" "/out/a/i.exr" none, true),
       (NodeState.mk "W2" "/out/b/img.exr" none, false)] =
      [NodeState.mk "W1" "/out/a/i.exr" none, NodeState.mk "W2" "/out/b/img.exr" none] := by
  exact ⟨by decide, by decide⟩

/-- C3: the spec says a script-generation error surfaces as a modal message
and never propagates out of the build sequence.  `_write_script_content`
does catch the error (here: the template file is missing), shows the modal
message and returns `None` — but `_build_temp_nuke_script` then calls
`script_file.write(None)`, which raises a `TypeError` that escapes the
build. -/
theorem C3_swallowed_error_reraises_on_write :
    build_temp_nuke_script
      (Env.mk false none none none "/job/comp/shot_v001.nk" (some "/job/review/shot.mov") "/res")
      (Fs.mk [] [])
      (PanelState.mk "1001-1050" "" "" 10 33 true true false)
      (NodeState.mk "Write1" "/out/img.1001.exr" none) =
    Outcome.mk (Except.error "TypeError: write() argument must be str, not None")
      ["Error generating Nuke script: FileNotFoundError: /res/nuke_template.txt"] := by
  rfl

/-- C8: a nonzero exit status yields the failure message carrying the
captured stderr, a zero exit status yields the success message carrying the
captured stdout, and the per-node loop of `show` processes every node — the
i-th message exists for every i regardless of the other results, so a
failure for node N does not stop node N+1. -/
theorem C8_result_handling_and_batch_continuation :
    (∀ r : CompletedProcess, r.returncode ≠ 0 →
      handle_submission_result r = "Failed to submit to Deadline!\n" ++ r.stderr) ∧
    (∀ r : CompletedProcess, r.returncode = 0 →
      handle_submission_result r = "Successfully submitted to Deadline!\n" ++ r.stdout) ∧
    (∀ (nodes : List NodeState) (run : NodeState → CompletedProcess),
      (run_submissions nodes run).length = nodes.length ∧
      ∀ i, ∀ h : i < nodes.length,
        (run_submissions nodes run)[i]? =
          some (handle_submission_result (run (nodes.get ⟨i, h⟩)))) := by
  refine ⟨fun r h => ?_, fun r h => ?_, fun nodes run => ⟨?_, fun i h => ?_⟩⟩
  · simp [handle_submission_result, h]
  · simp [handle_submission_result, h]
  · simp [run_submissions]
  · simp [run_submissions, List.getElem?_map, List.getElem?_eq_getElem h]

/-- C2: in every job descriptor that `_write_job_info` produces, the single
`ChunkSize` line carries the fixed sentinel `1000000` for a `"mov"` job and
exactly the user-entered chunk size for an image-sequence (`"exr"`) job. -/
theorem C2_chunk_size_sentinel (env : Env) (p : PanelState) (node : NodeState)
    (f : Option String) :
    (∀ lines, write_job_info_lines env p "mov" node f = some lines →
      lines.filter (fun s => lineKey s == "ChunkSize") = [kv "ChunkSize" "1000000"]) ∧
    (∀ lines, write_job_info_lines env p "exr" node f = some lines →
      lines.filter (fun s => lineKey s == "ChunkSize") =
        [kv "ChunkSize" (pyIntRepr p.chunk_size)]) := by
  constructor <;> intro lines h <;>
    unfold write_job_info_lines at h <;>
    cases hfr : get_adjusted_frame_range p <;> rw [hfr] at h <;> simp at h <;>
    subst h <;>
    rw [filter_key_cons_ne _ _ _ _ (by decide) (by decide),
      filter_key_cons_ne _ _ _ _ (by decide) (by decide),
      filter_key_cons_ne _ _ _ _ (by decide) (by decide),
      filter_key_cons_ne _ _ _ _ (by decide) (by decide),
      filter_key_cons_eq _ _ _ (by decide),
      filter_key_cons_ne _ _ _ _ (by decide) (by decide),
      filter_key_cons_ne _ _ _ _ (by decide) (by decide),
      filter_key_cons_ne _ _ _ _ (by decide) (by decide),
      filter_key_cons_ne _ _ _ _ (by decide) (by decide),
      filter_key_cons_ne _ _ _ _ (by decide) (by decide),
      filter_key_cons_ne _ _ _ _ (by decide) (by decide),
      filter_key_cons_ne _ _ _ _ (by decide) (by decide),
      List.filter_nil]

/-- C2 witness: the theorem applied to a concrete movie submission. -/
theorem C2_witness :
    write_job_info_lines sampleEnv samplePanel "mov" sampleNode (some "/j/review/s.mov") =
      some ((write_job_info_lines sampleEnv samplePanel "mov" sampleNode
        (some "/j/review/s.mov")).getD []) ∧
    ((write_job_info_lines sampleEnv samplePanel "mov" sampleNode
        (some "/j/review/s.mov")).getD []).filter (fun s => lineKey s == "ChunkSize") =
      [kv "ChunkSize" "1000000"] :=
  ⟨by decide,
   (C2_chunk_size_sentinel sampleEnv samplePanel sampleNode (some "/j/review/s.mov")).1 _
     (by decide)⟩

/-- C5: for every filesystem state and saved script path, the naming loop of
`_build_temp_nuke_script` terminates and picks
`<stem>_tmp_<%02d number>.nk` in the `tmp` sibling directory for the least
number `n ≥ 1` whose candidate does not already exist; consequently the
chosen path does not exist, so no previously existing temporary script is
overwritten — and whenever `_build_temp_nuke_script` succeeds, the script
path it returns is exactly that candidate. -/
theorem C5_temp_script_naming (fs : Fs) (sp : String) :
    ∃ n, 1 ≤ n ∧
      choose_temp_script_path fs sp = some (temp_script_candidate sp n) ∧
      fs_path_exists fs (temp_script_candidate sp n) = false ∧
      (∀ m, 1 ≤ m → m < n → fs_path_exists fs (temp_script_candidate sp m) = true) ∧
      (∀ (env : Env) (p : PanelState) (node : NodeState), env.script_path = sp →
        ∀ path out, (build_temp_nuke_script env fs p node).value = Except.ok (path, out) →
          path = temp_script_candidate sp n) := by
  obtain ⟨k, hk, hfree⟩ := exists_free_candidate fs sp
  obtain ⟨j, hfind, hge, hfr, hall⟩ :=
    find_free_spec fs sp (fs.files.length + fs.dirs.length + 1) 1 ⟨k, hk, hfree⟩
  have hchoose : choose_temp_script_path fs sp = some (temp_script_candidate sp j) := by
    unfold choose_temp_script_path
    rw [hfind]
    rfl
  refine ⟨j, hge, hchoose, hfr, hall, ?_⟩
  intro env p node hsp path out hok
  unfold build_temp_nuke_script at hok
  rw [hsp, hchoose] at hok
  dsimp only at hok
  cases hcv : (write_script_content env fs p (pyReplace node.file "\\" "/")
      (review_output_path env.render_template node.file (pyReplace node.file "\\" "/"))).value with
  | none =>
    rw [hcv] at hok
    simp at hok
  | some c =>
    rw [hcv] at hok
    simp only [Except.ok.injEq, Prod.mk.injEq] at hok
    exact hok.1.symm

/-- C5 witness: the theorem applied to a filesystem already holding the
first two numbered temporary scripts; the loop lands on number 3. -/
theorem C5_witness :
    ∃ n, 1 ≤ n ∧
      choose_temp_script_path
        (Fs.mk [("/job/comp/tmp/shot_v001_tmp_01.nk", "x"),
                ("/job/comp/tmp/shot_v001_tmp_02.nk", "y")] [])
        "/job/comp/shot_v001.nk" =
        some (temp_script_candidate "/job/comp/shot_v001.nk" n) ∧
      fs_path_exists
        (Fs.mk [("/job/comp/tmp/shot_v001_tmp_01.nk", "x"),
                ("/job/comp/tmp/shot_v001_tmp_02.nk", "y")] [])
        (temp_script_candidate "/job/comp/shot_v001.nk" n) = false ∧
      (∀ m, 1 ≤ m → m < n →
        fs_path_exists
          (Fs.mk [("/job/comp/tmp/shot_v001_tmp_01.nk", "x"),
                  ("/job/comp/tmp/shot_v001_tmp_02.nk", "y")] [])
          (temp_script_candidate "/job/comp/shot_v001.nk" m) = true) ∧
      (∀ (env : Env) (p : PanelState) (node : NodeState),
        env.script_path = "/job/comp/shot_v001.nk" →
        ∀ path out,
          (build_temp_nuke_script env
            (Fs.mk [("/job/comp/tmp/shot_v001_tmp_01.nk", "x"),
                    ("/job/comp/tmp/shot_v001_tmp_02.nk", "y")] [])
            p node).value = Except.ok (path, out) →
          path = temp_script_candidate "/job/comp/shot_v001.nk" n) :=
  C5_temp_script_naming
    (Fs.mk [("/job/comp/tmp/shot_v001_tmp_01.nk", "x"),
            ("/job/comp/tmp/shot_v001_tmp_02.nk", "y")] [])
    "/job/comp/shot_v001.nk"

/-- C6: when template resolution yields nothing, the review-movie output
path equals the read file's directory, `"/review/"`, the read filename with
a trailing `.<4-plus digits>.exr` suffix stripped, and `".mov"` — for every
read path whose directory part is nonempty and does not end in a slash and
which contains no backslash. -/
theorem C6_fallback_review_movie_path (p rfp : String)
    (h1 : os_path_dirname p ≠ "")
    (h2 : strEnds "/" (os_path_dirname p) = false)
    (h3 : ∀ c ∈ p.data, c ≠ '\\') :
    review_output_path none p rfp =
      os_path_dirname p ++ "/review/" ++ strip_frame_exr (os_path_basename p) ++ ".mov" := by
  have hfb := fallback_render_path_eq p h1 h2
  have hnb : ∀ c ∈ (fallback_render_path p).data, c ≠ '\\' := by
    intro c hc
    rw [hfb] at hc
    simp only [String.data_append, List.mem_append] at hc
    rcases hc with ((h | h) | h) | h
    · exact h3 c (mem_dirname_subset p c h)
    · have hmem : c = '/' ∨ c = 'r' ∨ c = 'e' ∨ c = 'v' ∨ c = 'i' ∨ c = 'e' ∨ c = 'w' ∨ c = '/' := by
        simpa using h
      rcases hmem with h | h | h | h | h | h | h | h <;> subst h <;> decide
    · exact h3 c (mem_basename_subset p c (strip_frame_exr_subset _ c h))
    · have hmem : c = '.' ∨ c = 'm' ∨ c = 'o' ∨ c = 'v' := by
        simpa using h
      rcases hmem with h | h | h | h <;> subst h <;> decide
  have hne : fallback_render_path p ≠ "" := by
    intro h
    rw [hfb] at h
    have hd := congrArg String.data h
    rw [String.data_append] at hd
    exact absurd (List.append_eq_nil.mp hd).2 (by decide)
  show (if fallback_render_path p ≠ "" then pyReplace (fallback_render_path p) "\\" "/"
    else if rfp ≠ "" then
      pyReplace (os_path_join (os_path_dirname rfp) "output.mov") "\\" "/"
    else "/tmp/output.exr") =
    os_path_dirname p ++ "/review/" ++ strip_frame_exr (os_path_basename p) ++ ".mov"
  rw [if_pos hne, pyReplace_backslash_fixed _ hnb, hfb]

/-- C6 witness: the theorem applied to the spec's own example
`".../shot010.1001.exr"`, which lands in `".../review/shot010.mov"`. -/
theorem C6_witness :
    (os_path_dirname "/show/sq/shot010.1001.exr" ≠ "" ∧
      strEnds "/" (os_path_dirname "/show/sq/shot010.1001.exr") = false) ∧
    review_output_path none "/show/sq/shot010.1001.exr" "/show/sq/shot010.1001.exr" =
      os_path_dirname "/show/sq/shot010.1001.exr" ++ "/review/" ++
        strip_frame_exr (os_path_basename "/show/sq/shot010.1001.exr") ++ ".mov" ∧
    review_output_path none "/show/sq/shot010.1001.exr" "/show/sq/shot010.1001.exr" =
      "/show/sq/review/shot010.mov" :=
  ⟨⟨by decide, by decide⟩,
   C6_fallback_review_movie_path "/show/sq/shot010.1001.exr" "/show/sq/shot010.1001.exr"
     (by decide) (by decide) (by decide),
   by decide⟩

/-- C7: when the `OCIO` variable is unset or empty the resolved path is
empty; on a non-Windows system the resolved path is the input with every
occurrence of `"/Volumes/production/"` replaced by `"P:/"` and then every
backslash replaced by a forward slash (the backslash pass is exactly a
character map); in particular, an input consisting of the
`"/Volumes/production/"` prefix followed by a backslash-free tail with no
further needle occurrence resolves to `"P:/"` followed by that tail. -/
theorem C7_ocio_path_resolution :
    (∀ env : Env, env.ocio = none ∨ env.ocio = some "" → get_ocio_path env = "") ∧
    (∀ env : Env, env.windows = false → ∀ s : String, env.ocio = some s → s ≠ "" →
      (get_ocio_path env).data =
        (pyReplace s "/Volumes/production/" "P:/").data.map
          (fun c => if c = '\\' then '/' else c)) ∧
    (∀ env : Env, env.windows = false → ∀ t : String,
      env.ocio = some ("/Volumes/production/" ++ t) →
      listContainsSub ("/Volumes/production/").data t.data = false →
      (∀ c ∈ t.data, c ≠ '\\') →
      get_ocio_path env = "P:/" ++ t) := by
  refine ⟨fun env h => ?_, fun env hw s hs hne => ?_, fun env hw t ht hc hb => ?_⟩
  · rcases h with h | h <;> simp [get_ocio_path, h]
  · simp [get_ocio_path, hs, hne, hw, pyReplace_backslash]
  · have hne : "/Volumes/production/" ++ t ≠ "" := by
      intro h
      have hd := congrArg String.data h
      rw [String.data_append] at hd
      exact absurd (List.append_eq_nil.mp hd).1 (by decide)
    have hnb : ∀ c ∈ ("P:/" ++ t).data, c ≠ '\\' := by
      intro c hcm
      rw [String.data_append] at hcm
      rcases List.mem_append.mp hcm with h | h
      · have : c = 'P' ∨ c = ':' ∨ c = '/' := by simpa using h
        rcases this with h | h | h <;> subst h <;> decide
      · exact hb c h
    simp only [get_ocio_path, ht, Option.getD_some, if_neg hne, hw, eq_self_iff_true, if_true]
    rw [pyReplace_vol_head t hc, pyReplace_backslash_fixed _ hnb]

/-- C7 witness: the theorem's backslash-map and full-resolution parts
applied to concrete OCIO values. -/
theorem C7_witness :
    ("/Volumes/production/cfg\\o.ocio" ≠ "" ∧
      (get_ocio_path (Env.mk false (some "/Volumes/production/cfg\\o.ocio") none none "" none "")).data =
        (pyReplace "/Volumes/production/cfg\\o.ocio" "/Volumes/production/" "P:/").data.map
          (fun c => if c = '\\' then '/' else c)) ∧
    get_ocio_path (Env.mk false (some ("/Volumes/production/" ++ "cfg/o.ocio")) none none "" none "") =
      "P:/" ++ "cfg/o.ocio" :=
  ⟨⟨by decide,
    C7_ocio_path_resolution.2.1 _ rfl _ rfl (by decide)⟩,
   C7_ocio_path_resolution.2.2 _ rfl "cfg/o.ocio" rfl (by decide) (by decide)⟩

/-- C9 counterexample: the claim says the descriptor contains exactly one
output-directory entry per output kind, with no duplicated keys; but for a
concrete image-sequence (`"exr"`) job the descriptor carries the
`OutputDirectory0` line twice — once from the base line list and once from
the `exr` branch. -/
theorem C9_counterexample_exr_duplicate :
    (write_job_info_lines sampleEnv samplePanel "exr" sampleNode none).isSome = true ∧
    ((write_job_info_lines sampleEnv samplePanel "exr" sampleNode none).getD []).filter
        (fun s => lineKey s == "OutputDirectory0") =
      [kv "OutputDirectory0" "/out", kv "OutputDirectory0" "/out"] := by
  exact ⟨by decide, by decide⟩

/-- C9 amended: for a movie job the descriptor contains exactly one
`OutputDirectory0` entry (the write node's image directory) and one
`OutputDirectory1` entry (the movie directory); for an image-sequence job it
contains the `OutputDirectory0` entry (image directory) duplicated — two
identical lines — and no other output-directory keys. -/
theorem C9_output_directory_entries (env : Env) (p : PanelState) (node : NodeState)
    (f : Option String) :
    (∀ lines, write_job_info_lines env p "mov" node f = some lines →
      lines.filter (fun s => strStarts "OutputDirectory" (lineKey s)) =
        [kv "OutputDirectory0" (os_path_dirname node.file),
         kv "OutputDirectory1" (os_path_dirname (f.getD ""))]) ∧
    (∀ lines, write_job_info_lines env p "exr" node f = some lines →
      lines.filter (fun s => strStarts "OutputDirectory" (lineKey s)) =
        [kv "OutputDirectory0" (os_path_dirname node.file),
         kv "OutputDirectory0" (os_path_dirname node.file)]) := by
  constructor <;> intro lines h <;>
    unfold write_job_info_lines at h <;>
    cases hfr : get_adjusted_frame_range p <;> rw [hfr] at h <;> simp at h <;>
    subst h <;>
    rw [filter_odir_cons_neg _ _ _ (by decide) (by decide),
      filter_odir_cons_neg _ _ _ (by decide) (by decide),
      filter_odir_cons_neg _ _ _ (by decide) (by decide),
      filter_odir_cons_neg _ _ _ (by decide) (by decide),
      filter_odir_cons_neg _ _ _ (by decide) (by decide),
      filter_odir_cons_neg _ _ _ (by decide) (by decide),
      filter_odir_cons_neg _ _ _ (by decide) (by decide),
      filter_odir_cons_neg _ _ _ (by decide) (by decide),
      filter_odir_cons_neg _ _ _ (by decide) (by decide),
      filter_odir_cons_neg _ _ _ (by decide) (by decide),
      filter_odir_cons_pos _ _ _ (by decide) (by decide),
      filter_odir_cons_pos _ _ _ (by decide) (by decide),
      List.filter_nil]

/-- C9 witness: the amended theorem applied to a concrete movie
submission. -/
theorem C9_witness :
    write_job_info_lines sampleEnv samplePanel "mov" sampleNode (some "/j/review/s.mov") =
      some ((write_job_info_lines sampleEnv samplePanel "mov" sampleNode
        (some "/j/review/s.mov")).getD []) ∧
    ((write_job_info_lines sampleEnv samplePanel "mov" sampleNode
        (some "/j/review/s.mov")).getD []).filter
        (fun s => strStarts "OutputDirectory" (lineKey s)) =
      [kv "OutputDirectory0" "/out", kv "OutputDirectory1" "/j/review"] :=
  ⟨by decide,
   ((C9_output_directory_entries sampleEnv samplePanel sampleNode
      (some "/j/review/s.mov")).1 _ (by decide)).trans (by decide)⟩

/-- C8 witness: the theorem applied to a failing and a succeeding concrete
process result. -/
theorem C8_witness :
    ((1 : Int) ≠ 0 ∧
      handle_submission_result (CompletedProcess.mk 1 "out" "boom") =
        "Failed to submit to Deadline!\n" ++ "boom") ∧
    ((0 : Int) = 0 ∧
      handle_submission_result (CompletedProcess.mk 0 "ok" "") =
        "Successfully submitted to Deadline!\n" ++ "ok") :=
  ⟨⟨by decide, C8_result_handling_and_batch_continuation.1 _ (by decide)⟩,
   ⟨rfl, C8_result_handling_and_batch_continuation.2.1 _ rfl⟩⟩

end SubmitterPanel


